import Mathlib

/-!
# Verification of the llm-crawl crawler engine

A shallow embedding of the crawler in `src/crawler.py` and its helper
classes in `src/utils/` (adaptive rate limiter, content deduplicator,
proxy manager, continuous learner, enhanced link prioritizer), together
with theorems settling the specification's claims about them.

Modelling conventions:
* Python `float` arithmetic is modelled with `ℚ` (the values involved are
  exact decimal fractions and the claims are about exact algebra, not
  rounding).
* External effects (HTTP responses, robots answers, the newspaper
  extractor, BeautifulSoup link enumeration, the BERT/sentence-transformer
  embedding models, the sklearn probability output, and the md5 digest)
  are uninterpreted functions collected in an `Env` record; the crawler's
  own control flow and state updates are translated from the source.
* `asyncio.gather` over the eagerly-built task list is modelled as the
  sequential single-worker execution: each task runs to completion in the
  order the entries appear in `url_queue` at the moment `crawl` is called
  (the task list in the source is built eagerly from `self.url_queue`
  before any task runs).  A task that raises before its `try` block (the
  `IndexError` from `get_proxy` on an empty proxy list) performs no state
  update.
* `visited_urls`, dict and `Counter` objects are modelled with lists
  (insert-if-absent, association lists); only membership/lookup is ever
  used by the source.
-/

/-- Association-list store: Python `dict` assignment `d[k] = v`
(replace if present, else append). -/
def assocSet {β : Type} (l : List (String × β)) (k : String) (v : β) :
    List (String × β) :=
  match l with
  | [] => [(k, v)]
  | (k1, v1) :: t => if k1 = k then (k, v) :: t else (k1, v1) :: assocSet t k v

/-- The pieces of `urllib.parse.urlparse` that the crawler uses.
Only `scheme`, `netloc` and `path` are read by the source. -/
structure UrlParts where
  scheme : String
  netloc : String
  path : String
deriving DecidableEq

/-- Split a character list at the first occurrence of `pat`,
returning the part before and the part after (pattern removed). -/
def breakOnAux (pat : List Char) : List Char → Option (List Char × List Char)
  | [] => if pat = [] then some ([], []) else none
  | c :: cs =>
    if pat.isPrefixOf (c :: cs) then some ([], (c :: cs).drop pat.length)
    else
      match breakOnAux pat cs with
      | some (l, r) => some (c :: l, r)
      | none => none

/-- Model of `urllib.parse.urlparse` restricted to the URL shapes the
crawler manipulates: absolute URLs of shape `scheme://host/path…` and
scheme-less references (relative paths, bare hosts).  Query strings,
fragments and userinfo are not separated, matching the URLs exercised
here.  For a scheme-less input Python reports an empty `scheme` and
`netloc` and puts everything in `path`, which this definition mirrors. -/
def urlparse (url : String) : UrlParts :=
  match breakOnAux "://".toList url.toList with
  | none => ⟨"", "", url⟩
  | some (before, after) =>
      ⟨String.mk before,
       String.mk (after.takeWhile (· ≠ '/')),
       String.mk (after.dropWhile (· ≠ '/'))⟩

/-- Python's substring test `pat in s`. -/
def containsSub (s pat : String) : Bool :=
  (List.range (s.toList.length + 1)).any fun i =>
    pat.toList.isPrefixOf (s.toList.drop i)

/-!
## `src/utils/adaptive_rate_limiter.py` — `AdaptiveRateLimiter`

`delays` is a `defaultdict(lambda: initial_delay)`; `wait` only touches
timing (`last_request_time`, `time.sleep`) and is not part of any claim,
so only the delay table and `update` are modelled.
-/
structure AdaptiveRateLimiter where
  delays : List (String × ℚ)
  initial_delay : ℚ
  backoff_factor : ℚ
  max_delay : ℚ
deriving DecidableEq

/-- Source: `AdaptiveRateLimiter()` with the constructor defaults used by the
crawler: `initial_delay=1.0, backoff_factor=1.5, max_delay=60.0`. -/
def AdaptiveRateLimiter.default : AdaptiveRateLimiter :=
  ⟨[], 1, 3 / 2, 60⟩

/-- Source: `self.delays[domain]`: defaultdict lookup. -/
def AdaptiveRateLimiter.delay (rl : AdaptiveRateLimiter) (domain : String) : ℚ :=
  (rl.delays.lookup domain).getD rl.initial_delay

/-- Source: `update(domain, success)`: on success
`delays[domain] = max(delays[domain] / backoff_factor, 1.0)`, on failure
`delays[domain] = min(delays[domain] * backoff_factor, max_delay)`. -/
def AdaptiveRateLimiter.update (rl : AdaptiveRateLimiter) (domain : String)
    (success : Bool) : AdaptiveRateLimiter :=
  let d := rl.delay domain
  let d1 := if success then max (d / rl.backoff_factor) 1
            else min (d * rl.backoff_factor) rl.max_delay
  { rl with delays := assocSet rl.delays domain d1 }

/-- Source: `n` consecutive `update` calls with the same outcome. -/
def AdaptiveRateLimiter.updateN (rl : AdaptiveRateLimiter) (domain : String)
    (success : Bool) : Nat → AdaptiveRateLimiter
  | 0 => rl
  | n + 1 => (rl.updateN domain success n).update domain success

/-!
## `src/utils/content_deduplicator.py` — `ContentDeduplicator`

`is_duplicate` computes `hashlib.md5(content.encode()).hexdigest()` — a
128-bit digest — and tests/updates the hash set.  The digest is modelled
by an uninterpreted function `digest : String → Nat` passed in by the
environment; the set of hex strings is modelled as a list of digests.
-/
structure ContentDeduplicator where
  content_hashes : List Nat
deriving DecidableEq

/-- Source: `is_duplicate(content)`: if the digest is present return `True`
(state unchanged), else add it and return `False`. -/
def ContentDeduplicator.is_duplicate (digest : String → Nat)
    (cd : ContentDeduplicator) (content : String) :
    Bool × ContentDeduplicator :=
  let content_hash := digest content
  if content_hash ∈ cd.content_hashes then (true, cd)
  else (false, ⟨content_hash :: cd.content_hashes⟩)

/-!
## `src/utils/proxy_manager.py` — `ProxyManager`

`get_proxy` indexes `self.proxies[self.current_index]` *before* any
emptiness check: on an empty list Python raises `IndexError`.  The
fallible indexing is modelled with `Except`.
-/
/-- Model of the dict mapping both the http and https keys to the chosen
proxy, as returned by `get_proxy`. -/
structure ProxyDict where
  http : String
  https : String
deriving DecidableEq

structure ProxyManager where
  proxies : List String
  current_index : Nat
deriving DecidableEq

/-- Source: `get_proxy()`: `proxy = self.proxies[self.current_index]` (raises
`IndexError` when out of range, in particular always on an empty list),
then `self.current_index = (self.current_index + 1) % len(self.proxies)`. -/
def ProxyManager.get_proxy (pm : ProxyManager) :
    Except String (ProxyDict × ProxyManager) :=
  match pm.proxies.get? pm.current_index with
  | none => Except.error "IndexError: list index out of range"
  | some proxy =>
      Except.ok (⟨proxy, proxy⟩,
        ⟨pm.proxies, (pm.current_index + 1) % pm.proxies.length⟩)

/-!
## `src/utils/continuous_learner.py` — `ContinuousLearner`

The TF-IDF vectorizer and MultinomialNB classifier are modelled by their
training history: `vocabCorpus` is the list of texts the vectorizer's
vocabulary was fitted on (`fit_transform` refits it; `transform` leaves
it untouched), and `trainLog` is the cumulative list of `(text, label)`
examples given to the classifier (`fit` or `partial_fit`).  The numeric
probability output `predict_proba(X)[0][1]` is an uninterpreted function
of that history, supplied by the environment.
-/
structure ContinuousLearner where
  is_trained : Bool
  vocabCorpus : List String
  trainLog : List (String × Nat)
deriving DecidableEq

/-- Source: `ContinuousLearner()`: untrained. -/
def ContinuousLearner.init : ContinuousLearner := ⟨false, [], []⟩

/-- Source: `train(texts, labels)`: `vectorizer.fit_transform(texts)` (vocabulary
refitted on `texts`), `classifier.fit(X, labels)`, `is_trained = True`. -/
def ContinuousLearner.train (_L : ContinuousLearner) (texts : List String)
    (labels : List Nat) : ContinuousLearner :=
  ⟨true, texts, texts.zip labels⟩

/-- Source: `predict(text)`: `0.5` when untrained, else the classifier's
probability for class 1 on the transformed text. -/
def ContinuousLearner.predict (proba : List (String × Nat) → String → ℚ)
    (L : ContinuousLearner) (text : String) : ℚ :=
  if !L.is_trained then 1 / 2 else proba L.trainLog text

/-- Source: `update(text, label)`: first call trains from scratch on the single
example; later calls `transform` (no vocabulary refit) + `partial_fit`. -/
def ContinuousLearner.update (L : ContinuousLearner) (text : String)
    (label : Nat) : ContinuousLearner :=
  if !L.is_trained then L.train [text] [label]
  else { L with trainLog := L.trainLog ++ [(text, label)] }

/-!
## Environment of uninterpreted external effects

All network and model outputs consumed by the engine, as deterministic
functions.  `fetch` is the `aiohttp` GET inside `process_url`;
`linkContent` is the prioritizer's own `requests.get` re-fetch of a
candidate link (empty string models a failed fetch, which Python treats
as falsy and skips); `proba` is `predict_proba(X)[0][1]` as a function of
the classifier's cumulative training history.
-/
/-- Outcome of the HTTP GET in `process_url`: an exception during the
request, or a response with status and body text. -/
inductive FetchResult where
  | transportError : FetchResult
  | response (status : Nat) (content : String) : FetchResult
deriving DecidableEq

/-- The part of the extractor's output the engine consumes (the `text`
field feeds the learner; the rest is carried opaquely into the result). -/
structure Extracted where
  text : String
deriving DecidableEq

structure Env where
  fetch : String → FetchResult
  canFetch : String → String → Bool
  extract : String → String → Option Extracted
  pageLinks : String → List String
  linkContent : String → String
  extractText : String → String
  semSim : String → ℚ
  extractKeywords : String → List String
  proba : List (String × Nat) → String → ℚ
  digest : String → Nat

/-!
## `src/utils/link_prioritzer.py` — `EnhancedLinkPrioritizer`

The deep-learning pieces (`extract_text_from_html`, sentence-transformer
similarity, BERT keyword extraction) are the uninterpreted `extractText`,
`semSim`, `extractKeywords` of the environment.  `calculate_priority` is
translated statement by statement as the sequential accumulation the
source performs; the claim compares it with the specification's closed
formula `max(0, base + topical + keyword + type + domain_diversity +
depth_penalty)`.
-/
structure EnhancedLinkPrioritizer where
  priority_rules : List (String × Int)
  keyword_weights : List (String × Int)
  content_type_weights : List (String × Int)
  visited_domains : List (String × Nat)
deriving DecidableEq

/-- Source: `calculate_priority(url, content)`, translated line by line:
base from `priority_rules`, `+= semantic_similarity * 10`,
`+= sum(keyword_weights.get(kw, 0) for kw in extracted_keywords)`,
`+=` each `content_type_weights` entry whose key occurs in the URL path,
`+3`/`+1` domain diversity, `-= url.count('/') * 0.5`, and finally
`max(base_priority, 0)`. -/
def EnhancedLinkPrioritizer.calculate_priority (P : EnhancedLinkPrioritizer)
    (env : Env) (url content : String) : ℚ :=
  let domain := (urlparse url).netloc
  let b0 : ℚ := (((P.priority_rules.lookup domain).getD 0 : Int) : ℚ)
  let text := env.extractText content
  let b1 := b0 + env.semSim text * 10
  let keyword_score := (env.extractKeywords text).foldl
    (fun acc kw => acc + (((P.keyword_weights.lookup kw).getD 0 : Int) : ℚ)) 0
  let b2 := b1 + keyword_score
  let path := (urlparse url).path
  let b3 := P.content_type_weights.foldl
    (fun acc tw => if containsSub path tw.1 then acc + ((tw.2 : Int) : ℚ) else acc) b2
  let c := (P.visited_domains.lookup domain).getD 0
  let b4 := if c = 0 then b3 + 3 else if c < 5 then b3 + 1 else b3
  let depth := url.toList.count '/'
  let b5 := b4 - (depth : ℚ) * (1 / 2)
  max b5 0

/-- Source: `self.visited_domains[netloc] += 1` (a `Counter`). -/
def bumpDomain (P : EnhancedLinkPrioritizer) (d : String) :
    EnhancedLinkPrioritizer :=
  { P with visited_domains :=
      assocSet P.visited_domains d ((P.visited_domains.lookup d).getD 0 + 1) }

/-- The scoring loop of `prioritize_links`: fetch each candidate link,
skip empty content, score it with the *current* counter state, then bump
the link's domain counter. -/
def scoreLinks (env : Env) :
    EnhancedLinkPrioritizer → List String →
    List (String × ℚ) × EnhancedLinkPrioritizer
  | P, [] => ([], P)
  | P, link :: rest =>
    let content := env.linkContent link
    if content = "" then scoreLinks env P rest
    else
      let priority := P.calculate_priority env link content
      let P1 := bumpDomain P (urlparse link).netloc
      let (tl, P2) := scoreLinks env P1 rest
      ((link, priority) :: tl, P2)

/-- Python's `sorted(pairs, key=lambda x: x[1], reverse=True)`: a stable
sort placing higher priorities first, input order kept among equal
priorities.  `List.mergeSort` is stable, so it has exactly the semantics
of CPython's stable sort under the reversed key comparison. -/
def prioritySortDesc (l : List (String × ℚ)) : List (String × ℚ) :=
  l.mergeSort fun a b => decide (b.2 ≤ a.2)

/-- Source: `prioritize_links(links)`: score the links in order (mutating the
domain counter) and return them sorted by descending priority. -/
def EnhancedLinkPrioritizer.prioritize_links (P : EnhancedLinkPrioritizer)
    (env : Env) (links : List String) :
    List (String × ℚ) × EnhancedLinkPrioritizer :=
  let (scored, P1) := scoreLinks env P links
  (prioritySortDesc scored, P1)

/-- The specification's closed formula for the link scorer:
`max(0, base + topical + keyword + type + domain_diversity +
depth_penalty)` with the six contributions defined independently. -/
def specLinkScore (P : EnhancedLinkPrioritizer) (env : Env)
    (url content : String) : ℚ :=
  let domain := (urlparse url).netloc
  let text := env.extractText content
  let base : ℚ := (((P.priority_rules.lookup domain).getD 0 : Int) : ℚ)
  let topical : ℚ := 10 * env.semSim text
  let keyword : ℚ := ((env.extractKeywords text).map
    (fun kw => (((P.keyword_weights.lookup kw).getD 0 : Int) : ℚ))).sum
  let typeScore : ℚ := ((P.content_type_weights.filter
    (fun tw => containsSub (urlparse url).path tw.1)).map
      (fun tw => ((tw.2 : Int) : ℚ))).sum
  let domainDiversity : ℚ :=
    if (P.visited_domains.lookup domain).getD 0 = 0 then 3
    else if (P.visited_domains.lookup domain).getD 0 < 5 then 1 else 0
  let depthPenalty : ℚ := -(1 / 2) * ((url.toList.count '/' : Nat) : ℚ)
  max 0 (base + topical + keyword + typeScore + domainDiversity + depthPenalty)

/-!
## `src/crawler.py` — `EnhancedCrawler`

State and the per-URL task `process_url`, translated statement by
statement.  `fetchLog`, `updateLog` and `acceptedBodies` are observation
logs (ghost fields): `fetchLog` records each URL on which the
`session.get` of `process_url` is invoked, `updateLog` each
`rate_limiter.update(domain, success)` call, `acceptedBodies` the raw
body of each page for which a record is appended to `results`.  They are
only ever appended to and are read by no branch of the engine.
-/
/-- A result entry: the extracted content together with the
`relevance_score` and `url` fields `process_url` adds to it. -/
structure PageRecord where
  url : String
  text : String
  relevance_score : ℚ
deriving DecidableEq

structure Config where
  max_depth : Nat
  max_urls_per_domain : Nat
  user_agent : String

structure CrawlState where
  visited_urls : List String
  url_queue : List (String × Nat)
  results : List PageRecord
  dedup : ContentDeduplicator
  learner : ContinuousLearner
  prioritizer : EnhancedLinkPrioritizer
  proxy : ProxyManager
  limiter : AdaptiveRateLimiter
  fetchLog : List String
  updateLog : List (String × Bool)
  acceptedBodies : List String
deriving DecidableEq

/-- Source: `self.rate_limiter.update(domain, success)` plus its ghost log. -/
def rlUpdate (st : CrawlState) (domain : String) (success : Bool) : CrawlState :=
  { st with limiter := st.limiter.update domain success,
            updateLog := st.updateLog ++ [(domain, success)] }

/-- One iteration of the `for link, priority in prioritized_links` loop:
resolve the link against the referring URL (`urlparse(link).scheme and
link or f"{scheme}://{netloc}{link}"`) and append it to `url_queue` at
`depth + 1` unless it is already visited. -/
def enqueueStep (url : String) (depth : Nat) (s : CrawlState)
    (lp : String × ℚ) : CrawlState :=
  let link := lp.1
  let full_url :=
    if (urlparse link).scheme ≠ "" then link
    else (urlparse url).scheme ++ "://" ++ (urlparse url).netloc ++ link
  if full_url ∈ s.visited_urls then s
  else { s with url_queue := s.url_queue ++ [(full_url, depth + 1)] }

/-- The whole `for link, priority in prioritized_links` loop. -/
def enqueueLinks (st : CrawlState) (url : String) (depth : Nat)
    (plinks : List (String × ℚ)) : CrawlState :=
  plinks.foldl (enqueueStep url depth) st

/-- The body of the `if response.status == 200` branch up to (but not
including) `visited_urls.add` / `rate_limiter.update`: dedup check,
extraction, relevance scoring, result emission, learner self-training
update with label `int(relevance_score > 0.5)`, link enumeration,
prioritization and enqueueing. -/
def handleBody (env : Env) (st : CrawlState) (url : String) (depth : Nat)
    (content : String) : CrawlState :=
  let dres := st.dedup.is_duplicate env.digest content
  let st1 := { st with dedup := dres.2 }
  if dres.1 then st1
  else
    match env.extract content url with
    | none => st1
    | some extracted_content =>
      let relevance_score := st1.learner.predict env.proba extracted_content.text
      let st2 := { st1 with
        results := st1.results ++
          [PageRecord.mk url extracted_content.text relevance_score],
        acceptedBodies := st1.acceptedBodies ++ [content] }
      let label : Nat := if relevance_score > 1 / 2 then 1 else 0
      let st3 := { st2 with learner := st2.learner.update extracted_content.text label }
      let links := env.pageLinks content
      let pres := st3.prioritizer.prioritize_links env links
      let st4 := { st3 with prioritizer := pres.2 }
      enqueueLinks st4 url depth pres.1

/-- Source: `self.visited_urls.add(url)`. -/
def insertVisited (s : CrawlState) (url : String) : CrawlState :=
  { s with visited_urls := s.visited_urls.insert url }

/-- Source: `process_url(session, url, depth)`, sequential model.  Early returns:
depth bound / already visited, per-domain visited budget, robots.  Then
`get_proxy` (whose `IndexError` on an empty proxy list aborts the task
before the `try` block, leaving the state unchanged), the GET, and the
three outcomes: transport error → `update(domain, False)`; status 200 →
body handling, `visited_urls.add(url)`, `update(domain, True)`; other
status → `update(domain, False)`.  A failed URL is *not* added to
`visited_urls`. -/
def processUrl (env : Env) (cfg : Config) (st : CrawlState)
    (entry : String × Nat) : CrawlState :=
  if entry.2 > cfg.max_depth ∨ entry.1 ∈ st.visited_urls then st
  else if cfg.max_urls_per_domain ≤
      (st.visited_urls.countP fun u =>
        (urlparse u).netloc == (urlparse entry.1).netloc) then st
  else if ¬ env.canFetch entry.1 cfg.user_agent then st
  else
    match st.proxy.get_proxy with
    | Except.error _ => st
    | Except.ok pr =>
      match env.fetch entry.1 with
      | FetchResult.transportError =>
          rlUpdate { st with proxy := pr.2, fetchLog := st.fetchLog ++ [entry.1] }
            (urlparse entry.1).netloc false
      | FetchResult.response status content =>
          if status = 200 then
            rlUpdate
              (insertVisited
                (handleBody env
                  { st with proxy := pr.2, fetchLog := st.fetchLog ++ [entry.1] }
                  entry.1 entry.2 content)
                entry.1)
              (urlparse entry.1).netloc true
          else
            rlUpdate { st with proxy := pr.2, fetchLog := st.fetchLog ++ [entry.1] }
              (urlparse entry.1).netloc false

/-- Source: `crawl()`: the task list is built eagerly from `self.url_queue`, so
exactly the entries present when `crawl` is called are processed, in
order (sequential single-worker execution of `asyncio.gather`). -/
def crawl (env : Env) (cfg : Config) (st : CrawlState) : CrawlState :=
  st.url_queue.foldl (processUrl env cfg) st

/-- Source: `EnhancedCrawler.__init__`: seeds at depth 0, fresh components, the
proxy list from the configuration. -/
def initState (seed_urls : List String) (proxies : List String)
    (prioritizer : EnhancedLinkPrioritizer) : CrawlState :=
  { visited_urls := []
    url_queue := seed_urls.map fun u => (u, 0)
    results := []
    dedup := ⟨[]⟩
    learner := ContinuousLearner.init
    prioritizer := prioritizer
    proxy := ⟨proxies, 0⟩
    limiter := AdaptiveRateLimiter.default
    fetchLog := []
    updateLog := []
    acceptedBodies := [] }

/-- The invariant the self-training loop maintains on the learner: either
it was never updated (untrained, empty history), or the very first
example it was trained on carried label 0. -/
def LearnerInv (L : ContinuousLearner) : Prop :=
  (L.is_trained = false ∧ L.trainLog = []) ∨
  ∃ t rest, L.trainLog = (t, 0) :: rest

/-- The invariant behind "fetched at most once": a URL has been fetched
at most once so far, and if it has been fetched it is already visited. -/
def C1Inv (u : String) (st : CrawlState) : Prop :=
  st.fetchLog.count u ≤ 1 ∧ (st.fetchLog.count u = 1 → u ∈ st.visited_urls)

/-!
## Concrete instances used by counterexamples and witnesses
-/
/-- Source: `EnhancedCrawler` constructor defaults: `max_depth=3`,
`max_urls_per_domain=100`. -/
def cfgDefault : Config := ⟨3, 100, "EnhancedCrawlerBot/1.0"⟩

def prioEmpty : EnhancedLinkPrioritizer := ⟨[], [], [], []⟩

/-- Priority rules giving host `b.com` base priority 10. -/
def prioRulesB : EnhancedLinkPrioritizer := ⟨[("b.com", 10)], [], [], []⟩

/-- Environment where every GET returns HTTP 404 and all model oracles
are trivial. -/
def envFail : Env :=
  { fetch := fun _ => FetchResult.response 404 ""
    canFetch := fun _ _ => true
    extract := fun _ _ => none
    pageLinks := fun _ => []
    linkContent := fun _ => ""
    extractText := fun _ => ""
    semSim := fun _ => 0
    extractKeywords := fun _ => []
    proba := fun _ _ => 0
    digest := fun _ => 0 }

/-- Every GET returns HTTP 200 with body `"c"`; the extractor fails
(returns none); the digest of every body is 7. -/
def envNoExtract : Env :=
  { envFail with
    fetch := fun _ => FetchResult.response 200 "c"
    digest := fun _ => 7 }

/-- Every GET returns HTTP 200 with body `"c"`; the extractor succeeds
with text `"txt"`. -/
def envOk : Env :=
  { envFail with
    fetch := fun _ => FetchResult.response 200 "c"
    extract := fun _ _ => some ⟨"txt"⟩ }

/-- The concrete run used by the C5 counterexample: one seed, HTTP 200,
extraction fails, body digest 7. -/
def runNoExtract : CrawlState :=
  crawl envNoExtract cfgDefault
    (initState ["http://a.com/x"] ["http://p:8080"] prioEmpty)

/-!
## Theorems
-/

theorem lookup_assocSet_self {β : Type} (l : List (String × β)) (k : String) (v : β) :
    (assocSet l k v).lookup k = some v := by
  induction l with
  | nil => simp [assocSet, List.lookup]
  | cons h t ih =>
    obtain ⟨k1, v1⟩ := h
    by_cases hk : k1 = k
    · simp [assocSet, hk, List.lookup]
    · have hbeq : (k == k1) = false := beq_eq_false_iff_ne.mpr (Ne.symm hk)
      simp [assocSet, hk, List.lookup, hbeq, ih]

theorem AdaptiveRateLimiter.delay_update_true (rl : AdaptiveRateLimiter)
    (domain : String) :
    (rl.update domain true).delay domain =
      max (rl.delay domain / rl.backoff_factor) 1 := by
  simp [AdaptiveRateLimiter.update, AdaptiveRateLimiter.delay,
    lookup_assocSet_self]

theorem AdaptiveRateLimiter.delay_update_false (rl : AdaptiveRateLimiter)
    (domain : String) :
    (rl.update domain false).delay domain =
      min (rl.delay domain * rl.backoff_factor) rl.max_delay := by
  simp [AdaptiveRateLimiter.update, AdaptiveRateLimiter.delay,
    lookup_assocSet_self]

theorem maxDivStep (x : ℚ) : max (max x 1 / (3 / 2)) 1 = max (x / (3 / 2)) 1 := by
  rcases le_total x 1 with h | h
  · rw [max_eq_right h, max_eq_right (by norm_num : (1 : ℚ) / (3 / 2) ≤ 1),
      max_eq_right (by linarith)]
  · rw [max_eq_left h]

theorem minMulStep (x : ℚ) : min (min x 60 * (3 / 2)) 60 = min (x * (3 / 2)) 60 := by
  rcases le_total x 60 with h | h
  · rw [min_eq_left h]
  · rw [min_eq_right h, min_eq_right (by norm_num : (60 : ℚ) ≤ 60 * (3 / 2)),
      min_eq_right (by linarith)]

theorem AdaptiveRateLimiter.update_fields (rl : AdaptiveRateLimiter)
    (domain : String) (success : Bool) :
    (rl.update domain success).backoff_factor = rl.backoff_factor ∧
    (rl.update domain success).max_delay = rl.max_delay ∧
    (rl.update domain success).initial_delay = rl.initial_delay := by
  simp [AdaptiveRateLimiter.update]

theorem AdaptiveRateLimiter.updateN_fields (rl : AdaptiveRateLimiter)
    (domain : String) (success : Bool) (n : Nat) :
    (rl.updateN domain success n).backoff_factor = rl.backoff_factor ∧
    (rl.updateN domain success n).max_delay = rl.max_delay ∧
    (rl.updateN domain success n).initial_delay = rl.initial_delay := by
  induction n with
  | zero => simp [AdaptiveRateLimiter.updateN]
  | succ n ih =>
    simp only [AdaptiveRateLimiter.updateN, AdaptiveRateLimiter.update]
    exact ⟨ih.1, ih.2.1, ih.2.2⟩

/-- Claim C3. `AdaptiveRateLimiter.update` semantics: with the default
parameters (`k = 3/2`, clamps `1` and `60`), one success maps the delay
`d` to `max (d / (3/2)) 1`, one failure to `min (d * (3/2)) 60`; `N ≥ 1`
consecutive successes from `d` give `max (d / (3/2)^N) 1`, `N`
consecutive failures give `min (d * (3/2)^N) 60`; and a host with no
entry in the delay table has delay `initial_delay = 1`. -/
theorem claim3_rate_limiter_semantics (rl : AdaptiveRateLimiter) (domain : String)
    (hb : rl.backoff_factor = 3 / 2) (hm : rl.max_delay = 60)
    (hi : rl.initial_delay = 1) :
    ((rl.update domain true).delay domain = max (rl.delay domain / (3 / 2)) 1) ∧
    ((rl.update domain false).delay domain = min (rl.delay domain * (3 / 2)) 60) ∧
    (∀ n : Nat, 1 ≤ n →
      (rl.updateN domain true n).delay domain =
        max (rl.delay domain / (3 / 2) ^ n) 1) ∧
    (∀ n : Nat, 1 ≤ n →
      (rl.updateN domain false n).delay domain =
        min (rl.delay domain * (3 / 2) ^ n) 60) ∧
    (rl.delays.lookup domain = none → rl.delay domain = 1) := by
  refine ⟨?_, ?_, ?_, ?_, ?_⟩
  · rw [AdaptiveRateLimiter.delay_update_true, hb]
  · rw [AdaptiveRateLimiter.delay_update_false, hb, hm]
  · intro n hn
    induction n with
    | zero => omega
    | succ n ih =>
      rcases Nat.eq_or_lt_of_le hn with h1 | h1
      · rw [show n = 0 by omega]
        simp only [AdaptiveRateLimiter.updateN]
        rw [AdaptiveRateLimiter.delay_update_true, hb, pow_one]
      · have hn' : 1 ≤ n := by omega
        simp only [AdaptiveRateLimiter.updateN]
        rw [AdaptiveRateLimiter.delay_update_true,
          (AdaptiveRateLimiter.updateN_fields rl domain true n).1, hb,
          ih hn', maxDivStep, div_div, ← pow_succ]
  · intro n hn
    induction n with
    | zero => omega
    | succ n ih =>
      rcases Nat.eq_or_lt_of_le hn with h1 | h1
      · rw [show n = 0 by omega]
        simp only [AdaptiveRateLimiter.updateN]
        rw [AdaptiveRateLimiter.delay_update_false, hb, hm, pow_one]
      · have hn' : 1 ≤ n := by omega
        simp only [AdaptiveRateLimiter.updateN]
        rw [AdaptiveRateLimiter.delay_update_false,
          (AdaptiveRateLimiter.updateN_fields rl domain false n).1,
          (AdaptiveRateLimiter.updateN_fields rl domain false n).2.1, hb, hm,
          ih hn', minMulStep, mul_assoc, ← pow_succ]
  · intro h
    simp [AdaptiveRateLimiter.delay, h, hi]

/-- Witness for C3: three consecutive failures from the freshly
constructed limiter take the delay of host `"h"` to
`min (1 * (3/2)^3) 60 = 27/8` (the spec's 3.375s back-off example). -/
theorem claim3_witness :
    (AdaptiveRateLimiter.default.updateN "h" false 3).delay "h" =
      min ((1 : ℚ) * (3 / 2) ^ 3) 60 := by
  have h := (claim3_rate_limiter_semantics AdaptiveRateLimiter.default "h"
    rfl rfl rfl).2.2.2.1 3 (by norm_num)
  simpa [show AdaptiveRateLimiter.default.delay "h" = 1 from rfl] using h

/-- Round-robin behaviour of `get_proxy` on a non-empty list: starting
from a valid index `i`, the call returns `proxies[i]` and moves the index
to `(i+1) % len`. -/
theorem get_proxy_round_robin (proxies : List String) (i : Nat)
    (hi : i < proxies.length) :
    (ProxyManager.mk proxies i).get_proxy =
      Except.ok (⟨proxies.get ⟨i, hi⟩, proxies.get ⟨i, hi⟩⟩,
        ⟨proxies, (i + 1) % proxies.length⟩) := by
  simp [ProxyManager.get_proxy, List.getElem?_eq_getElem hi]

/-- Claim C7. The relevance learner's contract: `predict` returns exactly
`1/2` on any text while untrained; the first `update` trains from scratch
on the single example `[(text, label)]` (refitting the vocabulary to that
one text); every later `update` leaves the fitted vocabulary unchanged
and incrementally adds the one example. -/
theorem claim7_learner_contract (proba : List (String × Nat) → String → ℚ)
    (L : ContinuousLearner) (text : String) (label : Nat) :
    (L.is_trained = false → L.predict proba text = 1 / 2) ∧
    (L.is_trained = false →
      L.update text label = ⟨true, [text], [(text, label)]⟩) ∧
    (L.is_trained = true →
      (L.update text label).vocabCorpus = L.vocabCorpus ∧
      (L.update text label).trainLog = L.trainLog ++ [(text, label)] ∧
      (L.update text label).is_trained = true) := by
  refine ⟨fun h => ?_, fun h => ?_, fun h => ?_⟩
  · simp [ContinuousLearner.predict, h]
  · simp [ContinuousLearner.update, ContinuousLearner.train, h, List.zip]
  · simp [ContinuousLearner.update, h]

/-- Witness for C7 at a concrete learner: the fresh learner predicts
`1/2`, its first update stores the single `("t", 0)` example, and a
second update appends without touching the vocabulary. -/
theorem claim7_witness :
    ContinuousLearner.init.predict (fun _ _ => 0) "t" = 1 / 2 ∧
    ContinuousLearner.init.update "t" 0 =
      ⟨true, ["t"], [("t", 0)]⟩ ∧
    ((ContinuousLearner.mk true ["t"] [("t", 0)]).update "u" 1).vocabCorpus
      = ["t"] := by
  refine ⟨(claim7_learner_contract (fun _ _ => 0)
      ContinuousLearner.init "t" 0).1 rfl,
    (claim7_learner_contract (fun _ _ => 0)
      ContinuousLearner.init "t" 0).2.1 rfl, ?_⟩
  exact ((claim7_learner_contract (fun _ _ => 0)
    (ContinuousLearner.mk true ["t"] [("t", 0)]) "u" 1).2.2 rfl).1

theorem foldl_add_map (l : List String) (f : String → ℚ) (a : ℚ) :
    l.foldl (fun acc kw => acc + f kw) a = a + (l.map f).sum := by
  induction l generalizing a with
  | nil => simp
  | cons x xs ih => simp [ih, add_assoc]

theorem foldl_ite_add_filter (l : List (String × Int)) (p : String × Int → Bool)
    (a : ℚ) :
    l.foldl (fun acc tw => if p tw then acc + ((tw.2 : Int) : ℚ) else acc) a =
      a + ((l.filter p).map (fun tw => ((tw.2 : Int) : ℚ))).sum := by
  induction l generalizing a with
  | nil => simp
  | cons x xs ih =>
    by_cases hp : p x
    · simp [hp, ih, add_assoc]
    · simp [hp, ih]

/-- Claim C6. The link scorer computes exactly
`max(0, base + topical + keyword + type + domain_diversity +
depth_penalty)` with `keyword` the sum of `keyword_weights[k]` (default
0) over the keywords extracted from the text, `domain_diversity` equal to
3 for an unseen host / 1 for a host seen fewer than 5 times / 0
otherwise, and `depth_penalty` equal to `-0.5` times the number of `/`
characters in the URL. -/
theorem claim6_link_scorer_formula (P : EnhancedLinkPrioritizer) (env : Env)
    (url content : String) :
    P.calculate_priority env url content = specLinkScore P env url content := by
  simp only [EnhancedLinkPrioritizer.calculate_priority, specLinkScore]
  rw [foldl_add_map, foldl_ite_add_filter]
  rw [max_comm]
  by_cases h0 : (P.visited_domains.lookup (urlparse url).netloc).getD 0 = 0
  · simp only [h0, if_pos rfl, if_true]
    congr 1
    ring
  · by_cases h5 : (P.visited_domains.lookup (urlparse url).netloc).getD 0 < 5
    · simp only [h0, h5, if_false, if_true]
      congr 1
      ring
    · simp only [h0, h5, if_false]
      congr 1
      ring

/-!
## Frame lemmas about `enqueueLinks`, `handleBody` and `processUrl`
-/
theorem ContentDeduplicator.is_duplicate_mem (digest : String → Nat)
    (cd : ContentDeduplicator) (content : String)
    (h : digest content ∈ cd.content_hashes) :
    cd.is_duplicate digest content = (true, cd) := by
  simp [ContentDeduplicator.is_duplicate, h]

theorem ContentDeduplicator.is_duplicate_not_mem (digest : String → Nat)
    (cd : ContentDeduplicator) (content : String)
    (h : digest content ∉ cd.content_hashes) :
    cd.is_duplicate digest content =
      (false, ⟨digest content :: cd.content_hashes⟩) := by
  simp [ContentDeduplicator.is_duplicate, h]

theorem enqueueStep_spec (url : String) (depth : Nat) (s : CrawlState)
    (lp : String × ℚ) :
    ∃ ext, enqueueStep url depth s lp =
      { s with url_queue := s.url_queue ++ ext } := by
  unfold enqueueStep
  dsimp only
  set f := if (urlparse lp.1).scheme ≠ "" then lp.1
    else (urlparse url).scheme ++ "://" ++ (urlparse url).netloc ++ lp.1 with hf
  by_cases hmem : f ∈ s.visited_urls
  · exact ⟨[], by rw [if_pos hmem]; simp⟩
  · exact ⟨[(f, depth + 1)], by rw [if_neg hmem]⟩

theorem enqueueLinks_spec (url : String) (depth : Nat)
    (plinks : List (String × ℚ)) :
    ∀ s : CrawlState, ∃ ext,
      enqueueLinks s url depth plinks =
        { s with url_queue := s.url_queue ++ ext } := by
  induction plinks with
  | nil => exact fun s => ⟨[], by simp [enqueueLinks]⟩
  | cons lp rest ih =>
    intro s
    obtain ⟨e1, h1⟩ := enqueueStep_spec url depth s lp
    obtain ⟨e2, h2⟩ := ih (enqueueStep url depth s lp)
    refine ⟨e1 ++ e2, ?_⟩
    simp only [enqueueLinks, List.foldl_cons] at *
    rw [h2, h1]
    simp

theorem enqueueLinks_visited (url : String) (depth : Nat)
    (plinks : List (String × ℚ)) (s : CrawlState) :
    (enqueueLinks s url depth plinks).visited_urls = s.visited_urls := by
  obtain ⟨ext, hext⟩ := enqueueLinks_spec url depth plinks s
  rw [hext]

theorem enqueueLinks_dedup (url : String) (depth : Nat)
    (plinks : List (String × ℚ)) (s : CrawlState) :
    (enqueueLinks s url depth plinks).dedup = s.dedup := by
  obtain ⟨ext, hext⟩ := enqueueLinks_spec url depth plinks s
  rw [hext]

theorem enqueueLinks_learner (url : String) (depth : Nat)
    (plinks : List (String × ℚ)) (s : CrawlState) :
    (enqueueLinks s url depth plinks).learner = s.learner := by
  obtain ⟨ext, hext⟩ := enqueueLinks_spec url depth plinks s
  rw [hext]

theorem enqueueLinks_fetchLog (url : String) (depth : Nat)
    (plinks : List (String × ℚ)) (s : CrawlState) :
    (enqueueLinks s url depth plinks).fetchLog = s.fetchLog := by
  obtain ⟨ext, hext⟩ := enqueueLinks_spec url depth plinks s
  rw [hext]

theorem enqueueLinks_updateLog (url : String) (depth : Nat)
    (plinks : List (String × ℚ)) (s : CrawlState) :
    (enqueueLinks s url depth plinks).updateLog = s.updateLog := by
  obtain ⟨ext, hext⟩ := enqueueLinks_spec url depth plinks s
  rw [hext]

theorem enqueueLinks_acceptedBodies (url : String) (depth : Nat)
    (plinks : List (String × ℚ)) (s : CrawlState) :
    (enqueueLinks s url depth plinks).acceptedBodies = s.acceptedBodies := by
  obtain ⟨ext, hext⟩ := enqueueLinks_spec url depth plinks s
  rw [hext]

theorem enqueueLinks_results (url : String) (depth : Nat)
    (plinks : List (String × ℚ)) (s : CrawlState) :
    (enqueueLinks s url depth plinks).results = s.results := by
  obtain ⟨ext, hext⟩ := enqueueLinks_spec url depth plinks s
  rw [hext]

theorem enqueueLinks_queue (url : String) (depth : Nat)
    (plinks : List (String × ℚ)) (s : CrawlState) :
    ∃ ext, (enqueueLinks s url depth plinks).url_queue =
      s.url_queue ++ ext := by
  obtain ⟨ext, hext⟩ := enqueueLinks_spec url depth plinks s
  exact ⟨ext, by rw [hext]⟩

theorem handleBody_visited (env : Env) (st : CrawlState) (url : String)
    (depth : Nat) (content : String) :
    (handleBody env st url depth content).visited_urls = st.visited_urls := by
  by_cases hd : env.digest content ∈ st.dedup.content_hashes
  · simp [handleBody, ContentDeduplicator.is_duplicate_mem env.digest st.dedup content hd]
  · cases hx : env.extract content url with
    | none =>
      simp [handleBody,
        ContentDeduplicator.is_duplicate_not_mem env.digest st.dedup content hd, hx]
    | some ex =>
      simp [handleBody,
        ContentDeduplicator.is_duplicate_not_mem env.digest st.dedup content hd, hx,
        enqueueLinks_visited]

theorem handleBody_fetchLog (env : Env) (st : CrawlState) (url : String)
    (depth : Nat) (content : String) :
    (handleBody env st url depth content).fetchLog = st.fetchLog := by
  by_cases hd : env.digest content ∈ st.dedup.content_hashes
  · simp [handleBody, ContentDeduplicator.is_duplicate_mem env.digest st.dedup content hd]
  · cases hx : env.extract content url with
    | none =>
      simp [handleBody,
        ContentDeduplicator.is_duplicate_not_mem env.digest st.dedup content hd, hx]
    | some ex =>
      simp [handleBody,
        ContentDeduplicator.is_duplicate_not_mem env.digest st.dedup content hd, hx,
        enqueueLinks_fetchLog]

theorem handleBody_updateLog (env : Env) (st : CrawlState) (url : String)
    (depth : Nat) (content : String) :
    (handleBody env st url depth content).updateLog = st.updateLog := by
  by_cases hd : env.digest content ∈ st.dedup.content_hashes
  · simp [handleBody, ContentDeduplicator.is_duplicate_mem env.digest st.dedup content hd]
  · cases hx : env.extract content url with
    | none =>
      simp [handleBody,
        ContentDeduplicator.is_duplicate_not_mem env.digest st.dedup content hd, hx]
    | some ex =>
      simp [handleBody,
        ContentDeduplicator.is_duplicate_not_mem env.digest st.dedup content hd, hx,
        enqueueLinks_updateLog]

theorem handleBody_queue (env : Env) (st : CrawlState) (url : String)
    (depth : Nat) (content : String) :
    ∃ ext, (handleBody env st url depth content).url_queue =
      st.url_queue ++ ext := by
  by_cases hd : env.digest content ∈ st.dedup.content_hashes
  · exact ⟨[], by
      simp [handleBody, ContentDeduplicator.is_duplicate_mem env.digest st.dedup content hd]⟩
  · cases hx : env.extract content url with
    | none =>
      exact ⟨[], by
        simp [handleBody,
          ContentDeduplicator.is_duplicate_not_mem env.digest st.dedup content hd, hx]⟩
    | some ex =>
      simp only [handleBody,
        ContentDeduplicator.is_duplicate_not_mem env.digest st.dedup content hd, hx]
      exact enqueueLinks_queue _ _ _ _

theorem handleBody_dedup_mono (env : Env) (st : CrawlState) (url : String)
    (depth : Nat) (content : String) (h : Nat)
    (hh : h ∈ st.dedup.content_hashes) :
    h ∈ (handleBody env st url depth content).dedup.content_hashes := by
  by_cases hd : env.digest content ∈ st.dedup.content_hashes
  · simpa [handleBody,
      ContentDeduplicator.is_duplicate_mem env.digest st.dedup content hd] using hh
  · cases hx : env.extract content url with
    | none =>
      simp [handleBody,
        ContentDeduplicator.is_duplicate_not_mem env.digest st.dedup content hd, hx]
      exact Or.inr hh
    | some ex =>
      simp [handleBody,
        ContentDeduplicator.is_duplicate_not_mem env.digest st.dedup content hd, hx,
        enqueueLinks_dedup]
      exact Or.inr hh

theorem learner_selfLabel_inv (proba : List (String × Nat) → String → ℚ)
    (L : ContinuousLearner) (text : String) (hInv : LearnerInv L) :
    LearnerInv (L.update text
      (if L.predict proba text > 1 / 2 then 1 else 0)) := by
  cases htr : L.is_trained with
  | false =>
    have hpred : L.predict proba text = 1 / 2 := by
      simp [ContinuousLearner.predict, htr]
    have hlabel : (if L.predict proba text > 1 / 2 then 1 else 0) = 0 := by
      rw [hpred]
      simp
    rw [hlabel]
    right
    refine ⟨text, [], ?_⟩
    simp [ContinuousLearner.update, ContinuousLearner.train, htr, List.zip]
  | true =>
    rcases hInv with ⟨hf, _⟩ | ⟨t, rest, hlog⟩
    · rw [htr] at hf; cases hf
    · right
      refine ⟨t, rest ++ [(text, if L.predict proba text > 1 / 2 then 1 else 0)], ?_⟩
      simp [ContinuousLearner.update, htr, hlog]

theorem handleBody_learnerInv (env : Env) (st : CrawlState) (url : String)
    (depth : Nat) (content : String) (hInv : LearnerInv st.learner) :
    LearnerInv (handleBody env st url depth content).learner := by
  by_cases hd : env.digest content ∈ st.dedup.content_hashes
  · simpa [handleBody,
      ContentDeduplicator.is_duplicate_mem env.digest st.dedup content hd] using hInv
  · cases hx : env.extract content url with
    | none =>
      simpa [handleBody,
        ContentDeduplicator.is_duplicate_not_mem env.digest st.dedup content hd,
        hx] using hInv
    | some ex =>
      simp only [handleBody,
        ContentDeduplicator.is_duplicate_not_mem env.digest st.dedup content hd, hx,
        Bool.false_eq_true, if_false, enqueueLinks_learner]
      exact learner_selfLabel_inv env.proba st.learner ex.text hInv

theorem handleBody_accepted (env : Env) (st : CrawlState) (url : String)
    (depth : Nat) (content : String)
    (hsub : st.acceptedBodies.map env.digest ⊆ st.dedup.content_hashes) :
    (handleBody env st url depth content).acceptedBodies.map env.digest ⊆
      (handleBody env st url depth content).dedup.content_hashes := by
  by_cases hd : env.digest content ∈ st.dedup.content_hashes
  · simpa [handleBody,
      ContentDeduplicator.is_duplicate_mem env.digest st.dedup content hd] using hsub
  · cases hx : env.extract content url with
    | none =>
      simp only [handleBody,
        ContentDeduplicator.is_duplicate_not_mem env.digest st.dedup content hd, hx,
        Bool.false_eq_true, if_false]
      intro a ha
      exact List.mem_cons_of_mem _ (hsub ha)
    | some ex =>
      simp only [handleBody,
        ContentDeduplicator.is_duplicate_not_mem env.digest st.dedup content hd, hx,
        Bool.false_eq_true, if_false, enqueueLinks_dedup, enqueueLinks_acceptedBodies]
      intro a ha
      simp only [List.map_append, List.map_cons, List.map_nil,
        List.mem_append, List.mem_singleton] at ha
      rcases ha with ha | ha
      · exact List.mem_cons_of_mem _ (hsub ha)
      · subst ha
        exact List.mem_cons_self _ _

theorem rlUpdate_visited (s : CrawlState) (d : String) (b : Bool) :
    (rlUpdate s d b).visited_urls = s.visited_urls := rfl

theorem rlUpdate_fetchLog (s : CrawlState) (d : String) (b : Bool) :
    (rlUpdate s d b).fetchLog = s.fetchLog := rfl

theorem rlUpdate_updateLog (s : CrawlState) (d : String) (b : Bool) :
    (rlUpdate s d b).updateLog = s.updateLog ++ [(d, b)] := rfl

theorem rlUpdate_queue (s : CrawlState) (d : String) (b : Bool) :
    (rlUpdate s d b).url_queue = s.url_queue := rfl

theorem rlUpdate_learner (s : CrawlState) (d : String) (b : Bool) :
    (rlUpdate s d b).learner = s.learner := rfl

theorem rlUpdate_dedup (s : CrawlState) (d : String) (b : Bool) :
    (rlUpdate s d b).dedup = s.dedup := rfl

theorem rlUpdate_acceptedBodies (s : CrawlState) (d : String) (b : Bool) :
    (rlUpdate s d b).acceptedBodies = s.acceptedBodies := rfl

theorem insertVisited_visited (s : CrawlState) (url : String) :
    (insertVisited s url).visited_urls = s.visited_urls.insert url := rfl

theorem insertVisited_fetchLog (s : CrawlState) (url : String) :
    (insertVisited s url).fetchLog = s.fetchLog := rfl

theorem insertVisited_updateLog (s : CrawlState) (url : String) :
    (insertVisited s url).updateLog = s.updateLog := rfl

theorem insertVisited_queue (s : CrawlState) (url : String) :
    (insertVisited s url).url_queue = s.url_queue := rfl

theorem insertVisited_learner (s : CrawlState) (url : String) :
    (insertVisited s url).learner = s.learner := rfl

theorem insertVisited_dedup (s : CrawlState) (url : String) :
    (insertVisited s url).dedup = s.dedup := rfl

theorem insertVisited_acceptedBodies (s : CrawlState) (url : String) :
    (insertVisited s url).acceptedBodies = s.acceptedBodies := rfl

theorem processUrl_skip_visited (env : Env) (cfg : Config) (st : CrawlState)
    (entry : String × Nat) (h : entry.1 ∈ st.visited_urls) :
    processUrl env cfg st entry = st := by
  unfold processUrl
  rw [if_pos (Or.inr h)]

theorem processUrl_visited_mono (env : Env) (cfg : Config) (st : CrawlState)
    (entry : String × Nat) (u : String) (hu : u ∈ st.visited_urls) :
    u ∈ (processUrl env cfg st entry).visited_urls := by
  unfold processUrl
  split
  · exact hu
  split
  · exact hu
  split
  · exact hu
  split
  · exact hu
  · split
    · rw [rlUpdate_visited]; exact hu
    · split
      · rw [rlUpdate_visited, insertVisited_visited, List.mem_insert_iff,
          handleBody_visited]
        exact Or.inr hu
      · rw [rlUpdate_visited]; exact hu

theorem processUrl_fetchLog (env : Env) (cfg : Config) (st : CrawlState)
    (entry : String × Nat) :
    (processUrl env cfg st entry).fetchLog = st.fetchLog ∨
    (processUrl env cfg st entry).fetchLog = st.fetchLog ++ [entry.1] := by
  unfold processUrl
  split
  · left; rfl
  split
  · left; rfl
  split
  · left; rfl
  split
  · left; rfl
  · split
    · right; rw [rlUpdate_fetchLog]
    · split
      · right
        rw [rlUpdate_fetchLog, insertVisited_fetchLog, handleBody_fetchLog]
      · right; rw [rlUpdate_fetchLog]

theorem processUrl_queue (env : Env) (cfg : Config) (st : CrawlState)
    (entry : String × Nat) :
    ∃ ext, (processUrl env cfg st entry).url_queue = st.url_queue ++ ext := by
  unfold processUrl
  split
  · exact ⟨[], by simp⟩
  split
  · exact ⟨[], by simp⟩
  split
  · exact ⟨[], by simp⟩
  split
  · exact ⟨[], by simp⟩
  · split
    · exact ⟨[], by rw [rlUpdate_queue]; simp⟩
    · split
      · rw [rlUpdate_queue, insertVisited_queue]
        exact handleBody_queue env _ entry.1 entry.2 _
      · exact ⟨[], by rw [rlUpdate_queue]; simp⟩

theorem processUrl_200_visited (env : Env) (cfg : Config) (st : CrawlState)
    (entry : String × Nat) (c : String)
    (h200 : env.fetch entry.1 = FetchResult.response 200 c) :
    (processUrl env cfg st entry).fetchLog = st.fetchLog ∨
    entry.1 ∈ (processUrl env cfg st entry).visited_urls := by
  unfold processUrl
  split
  · left; rfl
  split
  · left; rfl
  split
  · left; rfl
  split
  · left; rfl
  · rw [h200]
    simp only [eq_self_iff_true, if_true]
    right
    rw [rlUpdate_visited, insertVisited_visited, List.mem_insert_iff]
    exact Or.inl rfl

theorem processUrl_learnerInv (env : Env) (cfg : Config) (st : CrawlState)
    (entry : String × Nat) (hInv : LearnerInv st.learner) :
    LearnerInv (processUrl env cfg st entry).learner := by
  unfold processUrl
  split
  · exact hInv
  split
  · exact hInv
  split
  · exact hInv
  split
  · exact hInv
  · split
    · rw [rlUpdate_learner]; exact hInv
    · split
      · rw [rlUpdate_learner, insertVisited_learner]
        exact handleBody_learnerInv env _ entry.1 entry.2 _ hInv
      · rw [rlUpdate_learner]; exact hInv

theorem processUrl_accepted (env : Env) (cfg : Config) (st : CrawlState)
    (entry : String × Nat)
    (hsub : st.acceptedBodies.map env.digest ⊆ st.dedup.content_hashes) :
    (processUrl env cfg st entry).acceptedBodies.map env.digest ⊆
      (processUrl env cfg st entry).dedup.content_hashes := by
  unfold processUrl
  split
  · exact hsub
  split
  · exact hsub
  split
  · exact hsub
  split
  · exact hsub
  · split
    · rw [rlUpdate_acceptedBodies, rlUpdate_dedup]; exact hsub
    · split
      · rw [rlUpdate_acceptedBodies, rlUpdate_dedup, insertVisited_acceptedBodies,
          insertVisited_dedup]
        exact handleBody_accepted env _ entry.1 entry.2 _ hsub
      · rw [rlUpdate_acceptedBodies, rlUpdate_dedup]; exact hsub

/-!
## Run-level lemmas: folding `processUrl` over the task-list snapshot
-/
theorem foldProcess_fetchLog_ext (env : Env) (cfg : Config)
    (l : List (String × Nat)) :
    ∀ st : CrawlState, ∃ ext,
      (l.foldl (processUrl env cfg) st).fetchLog = st.fetchLog ++ ext ∧
      List.Sublist ext (l.map Prod.fst) := by
  induction l with
  | nil => exact fun st => ⟨[], by simp, List.nil_sublist _⟩
  | cons e t ih =>
    intro st
    obtain ⟨ext, hext, hsub⟩ := ih (processUrl env cfg st e)
    rcases processUrl_fetchLog env cfg st e with h | h
    · refine ⟨ext, ?_, List.Sublist.cons e.1 hsub⟩
      simp only [List.foldl_cons]
      rw [hext, h]
    · refine ⟨e.1 :: ext, ?_, List.Sublist.cons₂ e.1 hsub⟩
      simp only [List.foldl_cons]
      rw [hext, h]
      simp

theorem foldProcess_queue_ext (env : Env) (cfg : Config)
    (l : List (String × Nat)) :
    ∀ st : CrawlState, ∃ ext,
      (l.foldl (processUrl env cfg) st).url_queue = st.url_queue ++ ext := by
  induction l with
  | nil => exact fun st => ⟨[], by simp⟩
  | cons e t ih =>
    intro st
    obtain ⟨e1, h1⟩ := processUrl_queue env cfg st e
    obtain ⟨e2, h2⟩ := ih (processUrl env cfg st e)
    refine ⟨e1 ++ e2, ?_⟩
    simp only [List.foldl_cons]
    rw [h2, h1]
    simp

theorem foldProcess_learnerInv (env : Env) (cfg : Config)
    (l : List (String × Nat)) :
    ∀ st : CrawlState, LearnerInv st.learner →
      LearnerInv ((l.foldl (processUrl env cfg) st)).learner := by
  induction l with
  | nil => exact fun st h => h
  | cons e t ih =>
    intro st h
    simp only [List.foldl_cons]
    exact ih _ (processUrl_learnerInv env cfg st e h)

theorem foldProcess_accepted (env : Env) (cfg : Config)
    (l : List (String × Nat)) :
    ∀ st : CrawlState,
      st.acceptedBodies.map env.digest ⊆ st.dedup.content_hashes →
      ((l.foldl (processUrl env cfg) st)).acceptedBodies.map env.digest ⊆
        ((l.foldl (processUrl env cfg) st)).dedup.content_hashes := by
  induction l with
  | nil => exact fun st h => h
  | cons e t ih =>
    intro st h
    simp only [List.foldl_cons]
    exact ih _ (processUrl_accepted env cfg st e h)

theorem processUrl_C1Inv (env : Env) (cfg : Config) (st : CrawlState)
    (e : String × Nat) (u : String)
    (h200 : ∃ c, env.fetch u = FetchResult.response 200 c)
    (hInv : C1Inv u st) : C1Inv u (processUrl env cfg st e) := by
  by_cases he : e.1 = u
  · subst he
    by_cases hv : e.1 ∈ st.visited_urls
    · rw [processUrl_skip_visited env cfg st e hv]
      exact hInv
    · have hcount : st.fetchLog.count e.1 = 0 := by
        rcases Nat.le_one_iff_eq_zero_or_eq_one.mp hInv.1 with h0 | h1
        · exact h0
        · exact absurd (hInv.2 h1) hv
      obtain ⟨c, hc⟩ := h200
      rcases processUrl_fetchLog env cfg st e with h | h
      · constructor
        · rw [h]; omega
        · intro h1
          rw [h] at h1
          omega
      · have hvis : e.1 ∈ (processUrl env cfg st e).visited_urls := by
          rcases processUrl_200_visited env cfg st e c hc with hf | hm
          · rw [h] at hf
            simp at hf
          · exact hm
        have hone : (processUrl env cfg st e).fetchLog.count e.1 = 1 := by
          rw [h, List.count_append, hcount]
          simp
        exact ⟨le_of_eq hone, fun _ => hvis⟩
  · have hzero : List.count u [e.1] = 0 :=
      List.count_eq_zero.mpr (by simp [Ne.symm he])
    have hcnt : (processUrl env cfg st e).fetchLog.count u =
        st.fetchLog.count u := by
      rcases processUrl_fetchLog env cfg st e with h | h
      · rw [h]
      · rw [h, List.count_append, hzero]
        omega
    refine ⟨by rw [hcnt]; exact hInv.1, fun h1 => ?_⟩
    rw [hcnt] at h1
    exact processUrl_visited_mono env cfg st e u (hInv.2 h1)

theorem foldProcess_C1Inv (env : Env) (cfg : Config) (u : String)
    (h200 : ∃ c, env.fetch u = FetchResult.response 200 c)
    (l : List (String × Nat)) :
    ∀ st : CrawlState, C1Inv u st →
      C1Inv u ((l.foldl (processUrl env cfg) st)) := by
  induction l with
  | nil => exact fun st h => h
  | cons e t ih =>
    intro st h
    simp only [List.foldl_cons]
    exact ih _ (processUrl_C1Inv env cfg st e u h200 h)

/-!
## Order-theoretic facts about the priority sort
-/
theorem leDesc_trans : ∀ a b c : String × ℚ,
    decide (b.2 ≤ a.2) = true → decide (c.2 ≤ b.2) = true →
    decide (c.2 ≤ a.2) = true := by
  intro a b c hab hbc
  simp only [decide_eq_true_eq] at *
  exact le_trans hbc hab

theorem leDesc_total : ∀ a b : String × ℚ,
    (decide (b.2 ≤ a.2) || decide (a.2 ≤ b.2)) = true := by
  intro a b
  simpa using le_total b.2 a.2

/-- The output of the priority sort is in descending priority order. -/
theorem prioritySortDesc_pairwise (l : List (String × ℚ)) :
    (prioritySortDesc l).Pairwise fun a b => b.2 ≤ a.2 := by
  unfold prioritySortDesc
  exact (List.sorted_mergeSort leDesc_trans leDesc_total l).imp
    fun h => decide_eq_true_eq.mp h

/-- Stability of the priority sort: the entries carrying any fixed
priority appear in the output in exactly their input (FIFO) order. -/
theorem prioritySortDesc_filter (l : List (String × ℚ)) (p : ℚ) :
    (prioritySortDesc l).filter (fun x => decide (x.2 = p)) =
      l.filter (fun x => decide (x.2 = p)) := by
  unfold prioritySortDesc
  have hpw : (l.filter (fun x => decide (x.2 = p))).Pairwise
      (fun a b : String × ℚ => decide (b.2 ≤ a.2) = true) := by
    apply List.pairwise_of_forall_mem_list
    intro a ha b hb
    have ha2 : a.2 = p := by simpa using List.of_mem_filter ha
    have hb2 : b.2 = p := by simpa using List.of_mem_filter hb
    simp [ha2, hb2]
  have hsub : List.Sublist (l.filter (fun x => decide (x.2 = p))) l :=
    List.filter_sublist l
  have h1 : List.Sublist (l.filter (fun x => decide (x.2 = p)))
      (l.mergeSort fun a b => decide (b.2 ≤ a.2)) :=
    List.sublist_mergeSort leDesc_trans leDesc_total hpw hsub
  have h4 : (l.filter (fun x => decide (x.2 = p))).filter
      (fun x => decide (x.2 = p)) = l.filter (fun x => decide (x.2 = p)) := by
    rw [List.filter_filter]
    congr 1
    funext a
    rw [Bool.and_self]
  have h2 : List.Sublist (l.filter (fun x => decide (x.2 = p)))
      ((l.mergeSort fun a b => decide (b.2 ≤ a.2)).filter
        (fun x => decide (x.2 = p))) := by
    have h3 := h1.filter (fun x => decide (x.2 = p))
    rwa [h4] at h3
  have hperm : ((l.mergeSort fun a b => decide (b.2 ≤ a.2)).filter
      (fun x => decide (x.2 = p))).Perm (l.filter (fun x => decide (x.2 = p))) :=
    (List.mergeSort_perm l _).filter _
  exact (h2.eq_of_length hperm.length_eq.symm).symm

/-!
## Claims about the crawl run
-/
/-- Claim C1, counterexample. The claim "the GET in `process_url` is
invoked on a URL at most once per run, even when it occurs more than once
in the work queue" is false: with the seed duplicated and the server
answering 404, the URL is never marked visited, so both queue entries
fetch it — the fetch log contains it twice. -/
theorem claim1_counterexample :
    (crawl envFail cfgDefault
      (initState ["http://a.com/x", "http://a.com/x"]
        ["http://p:8080"] prioEmpty)).fetchLog =
      ["http://a.com/x", "http://a.com/x"] := by
  decide

/-- Claim C1, amended. In the sequential single-worker model, a URL whose
fetches return HTTP 200 is fetched at most once per crawl run even if it
occurs several times in the queue (the 200 branch adds it to
`visited_urls`, and `process_url` skips visited URLs); when its fetch
fails it is not marked visited and each further queue occurrence fetches
it again. -/
theorem claim1_fetched_once_on_success (env : Env) (cfg : Config)
    (st : CrawlState) (u : String)
    (h200 : ∃ c, env.fetch u = FetchResult.response 200 c)
    (hcount : st.fetchLog.count u ≤ 1)
    (hvis : st.fetchLog.count u = 1 → u ∈ st.visited_urls) :
    (crawl env cfg st).fetchLog.count u ≤ 1 :=
  (foldProcess_C1Inv env cfg u h200 st.url_queue st ⟨hcount, hvis⟩).1

/-- Witness for the amended C1: the duplicated seed of the
counterexample is fetched only once when the server answers 200. -/
theorem claim1_witness :
    (crawl envOk cfgDefault
      (initState ["http://a.com/x", "http://a.com/x"]
        ["http://p:8080"] prioEmpty)).fetchLog.count "http://a.com/x" ≤ 1 :=
  claim1_fetched_once_on_success envOk cfgDefault _ _ ⟨"c", rfl⟩
    (by simp [initState]) (by simp [initState])

/-- Claim C2, counterexample. The claim "the next entry processed is the
one with the higher priority" is false: queue entries carry no priority
and are processed in list (FIFO) order.  Here the link scorer assigns
`http://b.com/` priority 23/2 and `http://a.com/x/y` priority 1, yet the
crawler fetches `http://a.com/x/y` first because it is first in the
queue. -/
theorem claim2_counterexample :
    prioRulesB.calculate_priority envFail "http://b.com/" "c" >
      prioRulesB.calculate_priority envFail "http://a.com/x/y" "c" ∧
    (crawl envFail cfgDefault
      (initState ["http://a.com/x/y", "http://b.com/"]
        ["http://p:8080"] prioRulesB)).fetchLog =
      ["http://a.com/x/y", "http://b.com/"] := by
  constructor
  · simp only [EnhancedLinkPrioritizer.calculate_priority, prioRulesB, envFail,
      show (urlparse "http://b.com/").netloc = "b.com" from by decide,
      show (urlparse "http://a.com/x/y").netloc = "a.com" from by decide,
      show "http://b.com/".toList.count '/' = 3 from by decide,
      show "http://a.com/x/y".toList.count '/' = 4 from by decide,
      show (List.lookup "a.com" [("b.com", (10 : Int))]) = none from by decide,
      show (List.lookup "b.com" [("b.com", (10 : Int))]) = some 10 from by decide]
    norm_num
  · decide

/-- Claim C2, amended. Queue entries are processed in enqueue (FIFO)
order irrespective of priority: the run's fetch sequence is a subsequence
of the queue snapshot in queue order.  Priorities only order the links
discovered on a single page before they are appended:
`prioritize_links` returns them sorted by descending priority and the
sort is stable, so equal priorities keep their discovery (FIFO) order. -/
theorem claim2_fifo_and_stable_priority_sort (env : Env) (cfg : Config)
    (st : CrawlState) (P : EnhancedLinkPrioritizer) (links : List String)
    (p : ℚ) :
    ((P.prioritize_links env links).1.Pairwise fun a b => b.2 ≤ a.2) ∧
    ((P.prioritize_links env links).1.filter (fun x => decide (x.2 = p)) =
      (scoreLinks env P links).1.filter (fun x => decide (x.2 = p))) ∧
    (∃ ext, (crawl env cfg st).fetchLog = st.fetchLog ++ ext ∧
      List.Sublist ext (st.url_queue.map Prod.fst)) := by
  refine ⟨?_, ?_, ?_⟩
  · exact prioritySortDesc_pairwise _
  · exact prioritySortDesc_filter _ _
  · exact foldProcess_fetchLog_ext env cfg st.url_queue st

/-- Claim C9. `crawl` processes exactly the `(url, depth)` entries present
in `url_queue` when it is called: the fetch log only grows by URLs drawn,
in order, from that snapshot, while discovered links are merely appended
to `url_queue` (and hence are never fetched in the same invocation unless
they already occurred in the snapshot). -/
theorem claim9_crawl_processes_snapshot (env : Env) (cfg : Config)
    (st : CrawlState) :
    ∃ ext qext,
      (crawl env cfg st).fetchLog = st.fetchLog ++ ext ∧
      List.Sublist ext (st.url_queue.map Prod.fst) ∧
      (crawl env cfg st).url_queue = st.url_queue ++ qext := by
  obtain ⟨ext, h1, h2⟩ := foldProcess_fetchLog_ext env cfg st.url_queue st
  obtain ⟨qext, h3⟩ := foldProcess_queue_ext env cfg st.url_queue st
  exact ⟨ext, qext, h1, h2, h3⟩

/-- Claim C10. Starting from an untrained learner with empty history,
either the learner is never updated during the run, or the very first
example it is trained on carries label 0: before training `predict`
returns exactly 1/2 and the scheduler's label is
`int(relevance_score > 0.5) = 0`. -/
theorem claim10_first_label_zero (env : Env) (cfg : Config) (st : CrawlState)
    (h1 : st.learner.is_trained = false) (h2 : st.learner.trainLog = []) :
    (crawl env cfg st).learner.trainLog = [] ∨
    ∃ t rest, (crawl env cfg st).learner.trainLog = (t, 0) :: rest := by
  rcases foldProcess_learnerInv env cfg st.url_queue st (Or.inl ⟨h1, h2⟩) with
    ⟨_, hleft⟩ | hright
  · exact Or.inl hleft
  · exact Or.inr hright

/-- Witness for C10 on a concrete run that does update the learner. -/
theorem claim10_witness :
    (crawl envOk cfgDefault
      (initState ["http://a.com/x"] ["http://p:8080"] prioEmpty)).learner.trainLog
        = [] ∨
    ∃ t rest,
      (crawl envOk cfgDefault
        (initState ["http://a.com/x"] ["http://p:8080"] prioEmpty)).learner.trainLog
          = (t, 0) :: rest :=
  claim10_first_label_zero envOk cfgDefault
    (initState ["http://a.com/x"] ["http://p:8080"] prioEmpty) rfl rfl

/-- Claim C4, counterexample. The claim says a URL whose fetch fails is
"marked visited".  It is not: on HTTP 404 the `visited_urls.add` in the
200-branch is never executed, so the URL stays unvisited (and would be
fetched again if re-queued).  The `rate_limiter.update(domain, False)`
half does hold — the update log records exactly one failure entry. -/
theorem claim4_counterexample :
    (processUrl envFail cfgDefault
      (initState ["http://a.com/x"] ["http://p:8080"] prioEmpty)
      ("http://a.com/x", 0)).updateLog = [("a.com", false)] ∧
    "http://a.com/x" ∉
      (processUrl envFail cfgDefault
        (initState ["http://a.com/x"] ["http://p:8080"] prioEmpty)
        ("http://a.com/x", 0)).visited_urls := by
  constructor
  · decide
  · decide

/-- Claim C4, amended. For a URL whose processing reaches the GET (not
dropped by the depth bound, visited check, per-domain budget, robots, or
a proxy-pool error) and whose fetch fails — a transport error or a
non-200 status — `process_url` calls `rate_limiter.update(host, False)`
exactly once, and the URL is *not* added to `visited_urls` (so a later
queue occurrence would retry it). -/
theorem claim4_failure_updates_once_not_visited (env : Env) (cfg : Config)
    (st : CrawlState) (u : String) (d : Nat)
    (hdepth : ¬ d > cfg.max_depth) (hvis : u ∉ st.visited_urls)
    (hbudget : (st.visited_urls.countP fun v =>
      (urlparse v).netloc == (urlparse u).netloc) < cfg.max_urls_per_domain)
    (hrobots : env.canFetch u cfg.user_agent = true)
    (hproxy : ∃ pr, st.proxy.get_proxy = Except.ok pr)
    (hfail : env.fetch u = FetchResult.transportError ∨
      ∃ s c, env.fetch u = FetchResult.response s c ∧ s ≠ 200) :
    (processUrl env cfg st (u, d)).updateLog =
      st.updateLog ++ [((urlparse u).netloc, false)] ∧
    (processUrl env cfg st (u, d)).visited_urls = st.visited_urls := by
  obtain ⟨pr, hpr⟩ := hproxy
  unfold processUrl
  rw [if_neg (not_or.mpr ⟨hdepth, hvis⟩), if_neg (Nat.not_le.mpr hbudget),
    if_neg (by simp [hrobots]), hpr]
  rcases hfail with hf | ⟨s, c, hf, hs⟩
  · rw [hf]
    exact ⟨rfl, rfl⟩
  · rw [hf]
    simp only [if_neg hs]
    exact ⟨rfl, rfl⟩

/-- Witness for the amended C4 at the 404 counterexample state. -/
theorem claim4_witness :
    (processUrl envFail cfgDefault
      (initState ["http://a.com/x"] ["http://p:8080"] prioEmpty)
      ("http://a.com/x", 0)).updateLog =
      (initState ["http://a.com/x"] ["http://p:8080"] prioEmpty).updateLog ++
        [((urlparse "http://a.com/x").netloc, false)] ∧
    (processUrl envFail cfgDefault
      (initState ["http://a.com/x"] ["http://p:8080"] prioEmpty)
      ("http://a.com/x", 0)).visited_urls =
      (initState ["http://a.com/x"] ["http://p:8080"] prioEmpty).visited_urls :=
  claim4_failure_updates_once_not_visited envFail cfgDefault
    (initState ["http://a.com/x"] ["http://p:8080"] prioEmpty)
    "http://a.com/x" 0 (by decide) (by decide) (by decide) rfl
    ⟨(⟨"http://p:8080", "http://p:8080"⟩, ⟨["http://p:8080"], 0⟩), rfl⟩
    (Or.inr ⟨404, "", rfl, by decide⟩)

/-- Claim C5, counterexample. The claim says the dedup filter's digest set
always equals the set of digests of *accepted* page bodies.  It does not:
`is_duplicate` inserts the digest before extraction is attempted, so when
the extractor fails the digest stays in the filter although no record was
accepted.  Here the run ends with the filter holding digest 7 while no
body was accepted at all. -/
theorem claim5_counterexample :
    runNoExtract.dedup.content_hashes = [7] ∧
    runNoExtract.acceptedBodies = [] ∧
    runNoExtract.results = [] ∧
    runNoExtract.dedup.content_hashes ≠
      runNoExtract.acceptedBodies.map envNoExtract.digest := by
  refine ⟨by decide, by decide, ?_, by decide⟩
  rfl

/-- Claim C5, amended. The `is_duplicate` contract holds exactly as
specified — it returns true iff the digest is already present, and
otherwise inserts it and returns false — and across a crawl run the
filter's digest set *contains* the digest of every accepted page body
(it is a superset; equality can fail because digests of bodies whose
extraction failed are also retained). -/
theorem claim5_dedup_contract_and_superset (digest : String → Nat)
    (cd : ContentDeduplicator) (content : String) (env : Env) (cfg : Config)
    (st : CrawlState) :
    ((cd.is_duplicate digest content).1 = true ↔
      digest content ∈ cd.content_hashes) ∧
    (digest content ∉ cd.content_hashes →
      cd.is_duplicate digest content =
        (false, ⟨digest content :: cd.content_hashes⟩)) ∧
    (digest content ∈ cd.content_hashes →
      cd.is_duplicate digest content = (true, cd)) ∧
    (st.acceptedBodies.map env.digest ⊆ st.dedup.content_hashes →
      (crawl env cfg st).acceptedBodies.map env.digest ⊆
        (crawl env cfg st).dedup.content_hashes) := by
  refine ⟨?_, ?_, ?_, ?_⟩
  · by_cases h : digest content ∈ cd.content_hashes
    · simp [ContentDeduplicator.is_duplicate_mem digest cd content h, h]
    · simp [ContentDeduplicator.is_duplicate_not_mem digest cd content h, h]
  · exact fun h => ContentDeduplicator.is_duplicate_not_mem digest cd content h
  · exact fun h => ContentDeduplicator.is_duplicate_mem digest cd content h
  · exact fun h => foldProcess_accepted env cfg st.url_queue st h

/-- Witness for the amended C5: the contract evaluated on concrete
filters, and the run-level superset at the counterexample state. -/
theorem claim5_witness :
    ((ContentDeduplicator.mk [5]).is_duplicate (fun _ => 5) "x").1 = true ∧
    (ContentDeduplicator.mk []).is_duplicate (fun _ => 5) "x" =
      (false, ⟨[5]⟩) ∧
    runNoExtract.acceptedBodies.map envNoExtract.digest ⊆
      runNoExtract.dedup.content_hashes := by
  refine ⟨?_, ?_, ?_⟩
  · exact (claim5_dedup_contract_and_superset (fun _ => 5)
      (ContentDeduplicator.mk [5]) "x" envNoExtract cfgDefault
      (initState ["http://a.com/x"] ["http://p:8080"] prioEmpty)).1.mpr
      (by decide)
  · exact (claim5_dedup_contract_and_superset (fun _ => 5)
      (ContentDeduplicator.mk []) "x" envNoExtract cfgDefault
      (initState ["http://a.com/x"] ["http://p:8080"] prioEmpty)).2.1
      (by decide)
  · exact (claim5_dedup_contract_and_superset (fun _ => 5)
      (ContentDeduplicator.mk []) "x" envNoExtract cfgDefault
      (initState ["http://a.com/x"] ["http://p:8080"] prioEmpty)).2.2.2
      (by simp [initState])

/-- Claim C8. The claim says `get_proxy` returns none on an empty proxy
list and fetches proceed directly.  The code instead evaluates
`self.proxies[self.current_index]` before any emptiness check, which on
an empty list raises `IndexError` — outside the `try` block of
`process_url`, so the task dies before any fetch. -/
theorem claim8_get_proxy_empty_raises :
    (ProxyManager.mk [] 0).get_proxy =
      Except.error "IndexError: list index out of range" := rfl
